import Mathlib

/-!
# Hardware SPI transport of the STM32F1 HAL

A shallow embedding of `Marlin/src/HAL/HAL_STM32F1/HAL_spi_STM32F1.cpp`
(hardware SPI branch).  The file-level variable `spiConfig` and the calls made
on the `SPI` object are explicit state: every function maps a `HalState` to a
`HalState`, appending the calls it makes on `SPI` to the field `spiLog`.

Bytes, lengths and addresses are natural numbers.  The functions do no
arithmetic on them besides the loop counter of the buffer send, which stays
below its bound, so no wrap-around can occur.
-/

namespace HalSpiSTM32F1

/-! ## Constants and types from headers outside this file -/

/-- Modelled from the spec: the clock divisor constants `SPI_CLOCK_DIV2` ..
`SPI_CLOCK_DIV64` of the SPI library, whose header is not part of the sources;
the spec names them divide-by-2, 4, 8, 16, 32, 64 of the base clock. -/
inductive ClockDivider where
  | SPI_CLOCK_DIV2
  | SPI_CLOCK_DIV4
  | SPI_CLOCK_DIV8
  | SPI_CLOCK_DIV16
  | SPI_CLOCK_DIV32
  | SPI_CLOCK_DIV64
  deriving DecidableEq, Repr

/-- Modelled from the spec: the number by which a divisor constant divides the
base clock of the port (the number in the name of the constant). -/
def ClockDivider.divisor : ClockDivider → Nat
  | .SPI_CLOCK_DIV2 => 2
  | .SPI_CLOCK_DIV4 => 4
  | .SPI_CLOCK_DIV8 => 8
  | .SPI_CLOCK_DIV16 => 16
  | .SPI_CLOCK_DIV32 => 32
  | .SPI_CLOCK_DIV64 => 64

/-- Modelled from the spec: the bit order constants of the SPI library; the
source only uses `MSBFIRST`. -/
inductive BitOrder where
  | LSBFIRST
  | MSBFIRST
  deriving DecidableEq, Repr

/-- Modelled from the spec: the data mode constants of the SPI library; the
source only uses `SPI_MODE0` (clock idle low, sampled on the leading edge). -/
inductive DataMode where
  | SPI_MODE0
  | SPI_MODE1
  | SPI_MODE2
  | SPI_MODE3
  deriving DecidableEq, Repr

/-- The value built by `SPISettings(clock, bitOrder, dataMode)`: the three
constructor arguments. -/
structure SPISettings where
  clock : ClockDivider
  bitOrder : BitOrder
  dataMode : DataMode
  deriving DecidableEq, Repr

/-- The constants of `HAL.h` and the board configuration that the file uses
and that are declared elsewhere: the six speed levels accepted by the `switch`
of `spiInit`, the module number `SPI_DEVICE` and the fill byte `ff` of the
channel receive. -/
structure HalConsts where
  SPI_FULL_SPEED : Nat
  SPI_HALF_SPEED : Nat
  SPI_QUARTER_SPEED : Nat
  SPI_EIGHTH_SPEED : Nat
  SPI_SPEED_5 : Nat
  SPI_SPEED_6 : Nat
  SPI_DEVICE : Nat
  ff : Nat
  deriving Repr

/-- The six `case` labels of the `switch` in `spiInit`, in source order. -/
def HalConsts.caseLabels (K : HalConsts) : List Nat :=
  [K.SPI_FULL_SPEED, K.SPI_HALF_SPEED, K.SPI_QUARTER_SPEED,
   K.SPI_EIGHTH_SPEED, K.SPI_SPEED_5, K.SPI_SPEED_6]

/-- A `switch` only compiles when its `case` labels are pairwise different. -/
def HalConsts.WellFormed (K : HalConsts) : Prop :=
  K.caseLabels.Nodup

instance (K : HalConsts) : Decidable K.WellFormed := by
  unfold HalConsts.WellFormed; infer_instance

/-- A concrete choice of the constants, used to evaluate the definitions. -/
def sampleConsts : HalConsts :=
  { SPI_FULL_SPEED := 0, SPI_HALF_SPEED := 1, SPI_QUARTER_SPEED := 2,
    SPI_EIGHTH_SPEED := 3, SPI_SPEED_5 := 5, SPI_SPEED_6 := 6,
    SPI_DEVICE := 1, ff := 255 }

/-! ## The calls made on the `SPI` object -/

/-- One call on the `SPI` object, with its arguments.  Buffers are passed by
address. -/
inductive SpiCall where
  | setModule (dev : Nat)
  | begin
  | setClockDivider (clock : ClockDivider)
  | setBitOrder (order : BitOrder)
  | setDataMode (mode : DataMode)
  | beginTransaction (settings : SPISettings)
  | endTransaction
  | transfer (b : Nat)
  | send (b : Nat)
  | dmaTransfer (txBuf : Nat) (rxBuf : Nat) (length : Nat)
  | dmaSend (txBuf : Nat) (length : Nat)
  deriving DecidableEq, Repr

/-- The state the file works on: its variable `spiConfig` and the calls made on
`SPI` so far, oldest first. -/
structure HalState where
  spiConfig : SPISettings
  spiLog : List SpiCall
  deriving DecidableEq, Repr

/-- The device on the bus: the byte `SPI.transfer` returns, given the calls made
before it and the byte sent. -/
structure SpiDevice where
  miso : List SpiCall → Nat → Nat

/-- A call on `SPI` that returns nothing: it is appended to the log. -/
def HalState.call (c : SpiCall) (s : HalState) : HalState :=
  { s with spiLog := s.spiLog ++ [c] }

/-- The call `SPI.transfer(b)`: returns the byte of the device and logs the
call. -/
def SPI_transfer (D : SpiDevice) (b : Nat) (s : HalState) : Nat × HalState :=
  (D.miso s.spiLog b, s.call (.transfer b))

/-! ## The functions of the file -/

/-- The `switch` of `spiInit`: the value of the local `clock`. -/
def spiInitClock (K : HalConsts) (spiRate : Nat) : ClockDivider :=
  if spiRate = K.SPI_FULL_SPEED then .SPI_CLOCK_DIV2
  else if spiRate = K.SPI_HALF_SPEED then .SPI_CLOCK_DIV4
  else if spiRate = K.SPI_QUARTER_SPEED then .SPI_CLOCK_DIV8
  else if spiRate = K.SPI_EIGHTH_SPEED then .SPI_CLOCK_DIV16
  else if spiRate = K.SPI_SPEED_5 then .SPI_CLOCK_DIV32
  else if spiRate = K.SPI_SPEED_6 then .SPI_CLOCK_DIV64
  else .SPI_CLOCK_DIV2

/-- The function `spiInit(uint8_t spiRate)`. -/
def spiInit (K : HalConsts) (spiRate : Nat) (s : HalState) : HalState :=
  let clock := spiInitClock K spiRate
  let s := { s with spiConfig := SPISettings.mk clock .MSBFIRST .SPI_MODE0 }
  let s := s.call (.setModule K.SPI_DEVICE)
  let s := s.call .begin
  let s := s.call (.setClockDivider clock)
  let s := s.call (.setBitOrder .MSBFIRST)
  s.call (.setDataMode .SPI_MODE0)

/-- The function `spiRec(void)`; `isFileOpen` is what `card.isFileOpen()`
returns at this call. -/
def spiRec (D : SpiDevice) (isFileOpen : Bool) (s : HalState) : Nat × HalState :=
  if isFileOpen then
    let s := s.call (.beginTransaction s.spiConfig)
    let (returnByte, s) := SPI_transfer D 0xFF s
    let s := s.call .endTransaction
    (returnByte, s)
  else
    let (returnByte, s) := SPI_transfer D 0xFF s
    (returnByte, s)

/-- The function `spiRead(uint8_t* buf, uint16_t nbyte)`. -/
def spiRead (buf nbyte : Nat) (isFileOpen : Bool) (s : HalState) : HalState :=
  if isFileOpen then
    let s := s.call (.beginTransaction s.spiConfig)
    let s := s.call (.dmaTransfer 0 buf nbyte)
    s.call .endTransaction
  else
    s.call (.dmaTransfer 0 buf nbyte)

/-- The function `spiSend(uint8_t b)`. -/
def spiSend (b : Nat) (isFileOpen : Bool) (s : HalState) : HalState :=
  if isFileOpen then
    let s := s.call (.beginTransaction s.spiConfig)
    let s := s.call (.send b)
    s.call .endTransaction
  else
    s.call (.send b)

/-- The function `spiSendBlock(uint8_t token, const uint8_t* buf)`. -/
def spiSendBlock (token buf : Nat) (isFileOpen : Bool) (s : HalState) : HalState :=
  if isFileOpen then
    let s := s.call (.beginTransaction s.spiConfig)
    let s := s.call (.send token)
    let s := s.call (.dmaSend buf 512)
    s.call .endTransaction
  else
    let s := s.call (.send token)
    s.call (.dmaSend buf 512)

/-- The function `spiRec(uint32_t chan)` of the `SPI_EEPROM` section. -/
def spiRecChan (K : HalConsts) (D : SpiDevice) (_chan : Nat) (s : HalState) :
    Nat × HalState :=
  SPI_transfer D K.ff s

/-- The function `spiSend(uint32_t chan, byte b)` of the `SPI_EEPROM` section. -/
def spiSendChan (_chan : Nat) (b : Nat) (s : HalState) : HalState :=
  s.call (.send b)

/-- The `for` loop of `spiSend(uint32_t chan, const uint8_t* buf, size_t n)`,
entered with loop counter `p`; `buf p` is the byte `buf[p]`. -/
def spiSendBufLoop (chan : Nat) (buf : Nat → Nat) (n : Nat) (p : Nat) (s : HalState) :
    HalState :=
  if p < n then spiSendBufLoop chan buf n (p + 1) (spiSendChan chan (buf p) s) else s
termination_by n - p

/-- The function `spiSend(uint32_t chan, const uint8_t* buf, size_t n)` of the
`SPI_EEPROM` section. -/
def spiSendBuf (chan : Nat) (buf : Nat → Nat) (n : Nat) (s : HalState) : HalState :=
  spiSendBufLoop chan buf n 0 s

/-! ## Sequences of transfer operations -/

/-- One call of a transfer operation of the card interface, with its
arguments. -/
inductive TransferOp where
  | spiRec
  | spiSend (b : Nat)
  | spiRead (buf nbyte : Nat)
  | spiSendBlock (token buf : Nat)
  deriving DecidableEq, Repr

/-- Runs one transfer operation; the boolean is what `card.isFileOpen()` returns
at that call. -/
def runOp (D : SpiDevice) (step : Bool × TransferOp) (s : HalState) : HalState :=
  match step.2 with
  | .spiRec => (spiRec D step.1 s).2
  | .spiSend b => spiSend b step.1 s
  | .spiRead buf nbyte => spiRead buf nbyte step.1 s
  | .spiSendBlock token buf => spiSendBlock token buf step.1 s

/-- Runs a finite sequence of transfer operations, first to last. -/
def runOps (D : SpiDevice) (steps : List (Bool × TransferOp)) (s : HalState) : HalState :=
  steps.foldl (fun acc step => runOp D step acc) s

/-- The calls on `SPI` made between the state `s` and the later state `t`. -/
def emitted (s t : HalState) : List SpiCall :=
  t.spiLog.drop s.spiLog.length

/-! ## Properties of call sequences -/

/-- The settings carried by the `beginTransaction` calls of a sequence, in
order. -/
def beginSettings : List SpiCall → List SPISettings
  | [] => []
  | .beginTransaction c :: cs => c :: beginSettings cs
  | _ :: cs => beginSettings cs

/-- Whether a call is `beginTransaction`. -/
def SpiCall.isBegin : SpiCall → Bool
  | .beginTransaction _ => true
  | _ => false

/-- Whether a call is `endTransaction`. -/
def SpiCall.isEnd : SpiCall → Bool
  | .endTransaction => true
  | _ => false

/-- Whether a call is a single-byte transfer (`transfer` or `send`). -/
def SpiCall.isSingleByte : SpiCall → Bool
  | .transfer _ => true
  | .send _ => true
  | _ => false

/-- Whether a call is a bulk transfer (`dmaTransfer` or `dmaSend`). -/
def SpiCall.isBulk : SpiCall → Bool
  | .dmaTransfer _ _ _ => true
  | .dmaSend _ _ => true
  | _ => false

/-- Scans a call sequence for the bracket discipline.  `inside` tells whether a
`beginTransaction` is waiting for its `endTransaction`.  The scan fails on a
`beginTransaction` inside a bracket and on an `endTransaction` outside of one;
otherwise it returns whether a bracket is still open at the end. -/
def bracketScan : Bool → List SpiCall → Option Bool
  | inside, [] => some inside
  | inside, .beginTransaction _ :: cs => if inside then none else bracketScan true cs
  | inside, .endTransaction :: cs => if inside then bracketScan false cs else none
  | inside, _ :: cs => bracketScan inside cs

/-- The calls one transfer operation makes when the stored configuration is
`cfg`. -/
def opCalls (cfg : SPISettings) (step : Bool × TransferOp) : List SpiCall :=
  let body : List SpiCall :=
    match step.2 with
    | .spiRec => [.transfer 0xFF]
    | .spiSend b => [.send b]
    | .spiRead buf nbyte => [.dmaTransfer 0 buf nbyte]
    | .spiSendBlock token buf => [.send token, .dmaSend buf 512]
  if step.1 then [.beginTransaction cfg] ++ body ++ [.endTransaction] else body

/-- The calls a sequence of transfer operations makes when the stored
configuration is `cfg`. -/
def opsCalls (cfg : SPISettings) : List (Bool × TransferOp) → List SpiCall
  | [] => []
  | step :: steps => opCalls cfg step ++ opsCalls cfg steps

/-! ## Helper lemmas -/

@[simp]
theorem call_spiConfig (c : SpiCall) (s : HalState) :
    (s.call c).spiConfig = s.spiConfig := rfl

@[simp]
theorem call_spiLog (c : SpiCall) (s : HalState) :
    (s.call c).spiLog = s.spiLog ++ [c] := rfl

theorem emitted_append (s t : HalState) (cs : List SpiCall)
    (h : t.spiLog = s.spiLog ++ cs) : emitted s t = cs := by
  simp [emitted, h]

theorem runOp_eq (D : SpiDevice) (step : Bool × TransferOp) (s : HalState) :
    runOp D step s
      = { spiConfig := s.spiConfig, spiLog := s.spiLog ++ opCalls s.spiConfig step } := by
  obtain ⟨o, op⟩ := step
  cases op <;> cases o <;>
    simp [runOp, opCalls, spiRec, spiSend, spiRead, spiSendBlock, SPI_transfer,
      HalState.call]

theorem runOps_eq (D : SpiDevice) (steps : List (Bool × TransferOp)) (s : HalState) :
    runOps D steps s
      = { spiConfig := s.spiConfig, spiLog := s.spiLog ++ opsCalls s.spiConfig steps } := by
  induction steps generalizing s with
  | nil => simp [runOps, opsCalls]
  | cons step steps ih =>
    have h : runOps D (step :: steps) s = runOps D steps (runOp D step s) := rfl
    rw [h, ih, runOp_eq]
    simp [opsCalls]

theorem bracketScan_opCalls (cfg : SPISettings) (step : Bool × TransferOp)
    (rest : List SpiCall) :
    bracketScan false (opCalls cfg step ++ rest) = bracketScan false rest := by
  obtain ⟨o, op⟩ := step
  cases op <;> cases o <;> simp [opCalls, bracketScan]

theorem bracketScan_opsCalls (cfg : SPISettings) (steps : List (Bool × TransferOp)) :
    bracketScan false (opsCalls cfg steps) = some false := by
  induction steps with
  | nil => rfl
  | cons step steps ih => rw [opsCalls, bracketScan_opCalls, ih]

theorem countP_opCalls (cfg : SPISettings) (step : Bool × TransferOp) :
    (opCalls cfg step).countP SpiCall.isBegin = (opCalls cfg step).countP SpiCall.isEnd := by
  obtain ⟨o, op⟩ := step
  cases op <;> cases o <;> simp [opCalls, List.countP_cons, SpiCall.isBegin, SpiCall.isEnd]

theorem countP_opsCalls (cfg : SPISettings) (steps : List (Bool × TransferOp)) :
    (opsCalls cfg steps).countP SpiCall.isBegin
      = (opsCalls cfg steps).countP SpiCall.isEnd := by
  induction steps with
  | nil => rfl
  | cons step steps ih => simp [opsCalls, List.countP_append, countP_opCalls, ih]

theorem beginSettings_opCalls (cfg : SPISettings) (step : Bool × TransferOp)
    (rest : List SpiCall) :
    beginSettings (opCalls cfg step ++ rest)
      = (if step.1 then [cfg] else []) ++ beginSettings rest := by
  obtain ⟨o, op⟩ := step
  cases op <;> cases o <;> simp [opCalls, beginSettings]

theorem beginSettings_opsCalls (cfg : SPISettings) (steps : List (Bool × TransferOp)) :
    beginSettings (opsCalls cfg steps)
      = List.replicate (steps.countP (fun step => step.1)) cfg := by
  induction steps with
  | nil => rfl
  | cons step steps ih =>
    rw [opsCalls, beginSettings_opCalls, ih]
    obtain ⟨o, op⟩ := step
    cases o <;> simp [List.countP_cons, List.replicate_succ]

theorem spiSendBufLoop_eq (chan : Nat) (buf : Nat → Nat) (n : Nat) :
    ∀ (k p : Nat) (s : HalState), n - p = k →
      spiSendBufLoop chan buf n p s
        = { spiConfig := s.spiConfig,
            spiLog := s.spiLog ++ (List.range' p k).map (fun i => SpiCall.send (buf i)) } := by
  intro k
  induction k with
  | zero =>
    intro p s h
    rw [spiSendBufLoop, if_neg (by omega)]
    simp
  | succ k ih =>
    intro p s h
    rw [spiSendBufLoop, if_pos (by omega), ih (p + 1) _ (by omega)]
    simp [spiSendChan, List.range'_succ]

/-! ## The speed translation -/

/-- Claim C1: when the six case labels are pairwise different, the switch of
spiInit maps SPI_FULL_SPEED, SPI_HALF_SPEED, SPI_QUARTER_SPEED, SPI_EIGHTH_SPEED,
SPI_SPEED_5 and SPI_SPEED_6 to the divisors 2, 4, 8, 16, 32 and 64, each the
double of the one before, and every other rate (so every other 8-bit rate) to
the divisor 2. -/
theorem spiInitClock_table (K : HalConsts) (hK : K.WellFormed) :
    spiInitClock K K.SPI_FULL_SPEED = .SPI_CLOCK_DIV2 ∧
    spiInitClock K K.SPI_HALF_SPEED = .SPI_CLOCK_DIV4 ∧
    spiInitClock K K.SPI_QUARTER_SPEED = .SPI_CLOCK_DIV8 ∧
    spiInitClock K K.SPI_EIGHTH_SPEED = .SPI_CLOCK_DIV16 ∧
    spiInitClock K K.SPI_SPEED_5 = .SPI_CLOCK_DIV32 ∧
    spiInitClock K K.SPI_SPEED_6 = .SPI_CLOCK_DIV64 ∧
    (spiInitClock K K.SPI_FULL_SPEED).divisor = 2 ∧
    (spiInitClock K K.SPI_HALF_SPEED).divisor
      = 2 * (spiInitClock K K.SPI_FULL_SPEED).divisor ∧
    (spiInitClock K K.SPI_QUARTER_SPEED).divisor
      = 2 * (spiInitClock K K.SPI_HALF_SPEED).divisor ∧
    (spiInitClock K K.SPI_EIGHTH_SPEED).divisor
      = 2 * (spiInitClock K K.SPI_QUARTER_SPEED).divisor ∧
    (spiInitClock K K.SPI_SPEED_5).divisor
      = 2 * (spiInitClock K K.SPI_EIGHTH_SPEED).divisor ∧
    (spiInitClock K K.SPI_SPEED_6).divisor
      = 2 * (spiInitClock K K.SPI_SPEED_5).divisor ∧
    ∀ spiRate, spiRate ∉ K.caseLabels →
      spiInitClock K spiRate = .SPI_CLOCK_DIV2 := by
  simp only [HalConsts.WellFormed, HalConsts.caseLabels, List.nodup_cons,
    List.mem_cons, List.mem_singleton, not_or, List.not_mem_nil, not_false_eq_true,
    List.nodup_nil, and_true] at hK
  obtain ⟨⟨h12, h13, h14, h15, h16⟩, ⟨h23, h24, h25, h26⟩, ⟨h34, h35, h36⟩,
    ⟨h45, h46⟩, h56⟩ := hK
  have e1 : spiInitClock K K.SPI_FULL_SPEED = .SPI_CLOCK_DIV2 := by
    simp [spiInitClock]
  have e2 : spiInitClock K K.SPI_HALF_SPEED = .SPI_CLOCK_DIV4 := by
    simp [spiInitClock, Ne.symm h12]
  have e3 : spiInitClock K K.SPI_QUARTER_SPEED = .SPI_CLOCK_DIV8 := by
    simp [spiInitClock, Ne.symm h13, Ne.symm h23]
  have e4 : spiInitClock K K.SPI_EIGHTH_SPEED = .SPI_CLOCK_DIV16 := by
    simp [spiInitClock, Ne.symm h14, Ne.symm h24, Ne.symm h34]
  have e5 : spiInitClock K K.SPI_SPEED_5 = .SPI_CLOCK_DIV32 := by
    simp [spiInitClock, Ne.symm h15, Ne.symm h25, Ne.symm h35, Ne.symm h45]
  have e6 : spiInitClock K K.SPI_SPEED_6 = .SPI_CLOCK_DIV64 := by
    simp [spiInitClock, Ne.symm h16, Ne.symm h26, Ne.symm h36, Ne.symm h46, Ne.symm h56]
  refine ⟨e1, e2, e3, e4, e5, e6, ?_, ?_, ?_, ?_, ?_, ?_, ?_⟩
  · rw [e1]; rfl
  · rw [e1, e2]; rfl
  · rw [e2, e3]; rfl
  · rw [e3, e4]; rfl
  · rw [e4, e5]; rfl
  · rw [e5, e6]; rfl
  · intro spiRate hr
    simp only [HalConsts.caseLabels, List.mem_cons, List.mem_singleton, not_or,
      List.not_mem_nil, or_false] at hr
    obtain ⟨r1, r2, r3, r4, r5, r6⟩ := hr
    simp [spiInitClock, r1, r2, r3, r4, r5, r6]

/-- Witness of claim C1 at the sample constants: rate 1 gives divisor 4 and the
unlisted rate 4 gives divisor 2. -/
theorem spiInitClock_table_witness :
    sampleConsts.WellFormed ∧
    spiInitClock sampleConsts 1 = .SPI_CLOCK_DIV4 ∧
    spiInitClock sampleConsts 4 = .SPI_CLOCK_DIV2 :=
  ⟨by decide, (spiInitClock_table sampleConsts (by decide)).2.1,
    (spiInitClock_table sampleConsts (by decide)).2.2.2.2.2.2.2.2.2.2.2.2 4 (by decide)⟩

/-! ## The gate around the single transfers -/

/-- Claim C2: spiRec and spiSend make exactly the calls beginTransaction, one
single-byte transfer, endTransaction when the file is open, and exactly the one
single-byte transfer when it is not; two calls in a row are each bracketed by
their own value of the indicator. -/
theorem single_byte_gate (D : SpiDevice) (b b2 : Nat) (s : HalState) :
    (spiRec D true s).2.spiLog
      = s.spiLog ++ [.beginTransaction s.spiConfig, .transfer 0xFF, .endTransaction] ∧
    (spiRec D false s).2.spiLog = s.spiLog ++ [.transfer 0xFF] ∧
    (spiSend b true s).spiLog
      = s.spiLog ++ [.beginTransaction s.spiConfig, .send b, .endTransaction] ∧
    (spiSend b false s).spiLog = s.spiLog ++ [.send b] ∧
    (spiSend b2 false (spiSend b true s)).spiLog
      = s.spiLog ++ [.beginTransaction s.spiConfig, .send b, .endTransaction, .send b2] ∧
    (spiSend b2 true (spiSend b false s)).spiLog
      = s.spiLog ++ [.send b, .beginTransaction s.spiConfig, .send b2, .endTransaction] ∧
    (spiRec D false (spiRec D true s).2).2.spiLog
      = s.spiLog ++ [.beginTransaction s.spiConfig, .transfer 0xFF, .endTransaction,
          .transfer 0xFF] ∧
    (spiRec D true (spiRec D false s).2).2.spiLog
      = s.spiLog ++ [.transfer 0xFF, .beginTransaction s.spiConfig, .transfer 0xFF,
          .endTransaction] := by
  simp [spiRec, spiSend, SPI_transfer]

/-- Claim C3: spiSendBlock sends the token with the single-byte send, then makes
one dmaSend of the buffer with length 512; the pair is bracketed by
beginTransaction and endTransaction exactly when the file is open. -/
theorem spiSendBlock_calls (token buf : Nat) (s : HalState) :
    (spiSendBlock token buf true s).spiLog
      = s.spiLog ++ [.beginTransaction s.spiConfig, .send token, .dmaSend buf 512,
          .endTransaction] ∧
    (spiSendBlock token buf false s).spiLog
      = s.spiLog ++ [.send token, .dmaSend buf 512] := by
  simp [spiSendBlock]

/-- Claim C4: spiRead makes exactly one dmaTransfer call with the buffer as
destination and the given length, also for length 0, and no single-byte
transfer; the call is bracketed exactly when the file is open. -/
theorem spiRead_calls (buf nbyte : Nat) (s : HalState) :
    (spiRead buf nbyte true s).spiLog
      = s.spiLog ++ [.beginTransaction s.spiConfig, .dmaTransfer 0 buf nbyte,
          .endTransaction] ∧
    (spiRead buf nbyte false s).spiLog = s.spiLog ++ [.dmaTransfer 0 buf nbyte] ∧
    (spiRead buf 0 true s).spiLog
      = s.spiLog ++ [.beginTransaction s.spiConfig, .dmaTransfer 0 buf 0,
          .endTransaction] ∧
    (spiRead buf 0 false s).spiLog = s.spiLog ++ [.dmaTransfer 0 buf 0] ∧
    ((emitted s (spiRead buf nbyte true s)).filter SpiCall.isSingleByte) = [] ∧
    ((emitted s (spiRead buf nbyte false s)).filter SpiCall.isSingleByte) = [] := by
  simp [spiRead, emitted, SpiCall.isSingleByte]

/-- Claim C5: spiRec calls the single-byte transfer with the fill byte 0xFF and
returns the byte the device gave to that call, for both values of the indicator;
with the file closed the only call is transfer(0xFF). -/
theorem spiRec_result (D : SpiDevice) (s : HalState) :
    (spiRec D false s).1 = D.miso s.spiLog 0xFF ∧
    (spiRec D false s).2.spiLog = s.spiLog ++ [.transfer 0xFF] ∧
    (spiRec D true s).1
      = D.miso (s.spiLog ++ [.beginTransaction s.spiConfig]) 0xFF ∧
    (spiRec D true s).2.spiLog
      = s.spiLog ++ [.beginTransaction s.spiConfig, .transfer 0xFF, .endTransaction] ∧
    (spiRec D false s).1 = (SPI_transfer D 0xFF s).1 ∧
    (spiRec D true s).1
      = (SPI_transfer D 0xFF (s.call (.beginTransaction s.spiConfig))).1 := by
  simp [spiRec, SPI_transfer]

/-! ## Initialisation -/

/-- Claim C6: spiInit stores the configuration made of the translated divisor,
MSBFIRST and SPI_MODE0, and programs the port with the same three values. -/
theorem spiInit_config (K : HalConsts) (spiRate : Nat) (s : HalState) :
    (spiInit K spiRate s).spiConfig
      = SPISettings.mk (spiInitClock K spiRate) .MSBFIRST .SPI_MODE0 ∧
    (spiInit K spiRate s).spiLog
      = s.spiLog ++ [.setModule K.SPI_DEVICE, .begin,
          .setClockDivider (spiInit K spiRate s).spiConfig.clock,
          .setBitOrder (spiInit K spiRate s).spiConfig.bitOrder,
          .setDataMode (spiInit K spiRate s).spiConfig.dataMode] := by
  simp [spiInit]

/-- Claim C8: a second spiInit with the same rate leaves the same stored
configuration as the first and makes the same calls on the port. -/
theorem spiInit_idempotent (K : HalConsts) (spiRate : Nat) (s : HalState) :
    (spiInit K spiRate (spiInit K spiRate s)).spiConfig
      = (spiInit K spiRate s).spiConfig ∧
    emitted (spiInit K spiRate s) (spiInit K spiRate (spiInit K spiRate s))
      = emitted s (spiInit K spiRate s) ∧
    emitted s (spiInit K spiRate s)
      = [.setModule K.SPI_DEVICE, .begin, .setClockDivider (spiInitClock K spiRate),
          .setBitOrder .MSBFIRST, .setDataMode .SPI_MODE0] := by
  simp [spiInit, emitted]

/-! ## Sequences of transfer operations -/

/-- Claim C7: no transfer operation changes the stored configuration, and after
spiInit every beginTransaction of a sequence of transfer operations carries the
configuration stored by that spiInit: translated divisor, MSBFIRST, SPI_MODE0. -/
theorem spiConfig_frame (K : HalConsts) (D : SpiDevice) (spiRate : Nat)
    (steps : List (Bool × TransferOp)) (s : HalState) :
    (runOps D steps s).spiConfig = s.spiConfig ∧
    (runOps D steps (spiInit K spiRate s)).spiConfig
      = SPISettings.mk (spiInitClock K spiRate) .MSBFIRST .SPI_MODE0 ∧
    (runOps D steps (spiInit K spiRate s)).spiLog
      = (spiInit K spiRate s).spiLog
          ++ emitted (spiInit K spiRate s) (runOps D steps (spiInit K spiRate s)) ∧
    beginSettings (emitted (spiInit K spiRate s) (runOps D steps (spiInit K spiRate s)))
      = List.replicate (steps.countP (fun step => step.1))
          (SPISettings.mk (spiInitClock K spiRate) .MSBFIRST .SPI_MODE0) := by
  have hc : (spiInit K spiRate s).spiConfig
      = SPISettings.mk (spiInitClock K spiRate) .MSBFIRST .SPI_MODE0 := by
    simp [spiInit]
  have he := emitted_append (spiInit K spiRate s) (runOps D steps (spiInit K spiRate s))
    (opsCalls (spiInit K spiRate s).spiConfig steps) (by rw [runOps_eq])
  refine ⟨by rw [runOps_eq], by rw [runOps_eq, hc], ?_, ?_⟩
  · rw [he, runOps_eq]
  · rw [he, beginSettings_opsCalls, hc]

/-- Claim C9: the buffer send of the secondary channel makes exactly n
single-byte sends carrying buf[0] .. buf[n-1] in this order and no other call,
none at all for n = 0, and the calls do not depend on the channel. -/
theorem spiSendBuf_calls (chan chan2 : Nat) (buf : Nat → Nat) (n : Nat) (s : HalState) :
    (spiSendBuf chan buf n s).spiLog
      = s.spiLog ++ (List.range n).map (fun i => SpiCall.send (buf i)) ∧
    (emitted s (spiSendBuf chan buf n s)).length = n ∧
    (emitted s (spiSendBuf chan buf n s)).filter SpiCall.isBulk = [] ∧
    spiSendBuf chan buf 0 s = s ∧
    spiSendBuf chan buf n s = spiSendBuf chan2 buf n s := by
  have h : ∀ c, spiSendBuf c buf n s
      = { spiConfig := s.spiConfig,
          spiLog := s.spiLog ++ (List.range n).map (fun i => SpiCall.send (buf i)) } := by
    intro c
    rw [spiSendBuf, spiSendBufLoop_eq c buf n n 0 s (by omega), List.range_eq_range']
  have h0 : spiSendBuf chan buf 0 s = s := by
    rw [spiSendBuf, spiSendBufLoop_eq chan buf 0 0 0 s (by omega)]
    simp
  have he := emitted_append s (spiSendBuf chan buf n s)
    ((List.range n).map (fun i => SpiCall.send (buf i))) (by rw [h])
  refine ⟨by rw [h], by rw [he]; simp, ?_, h0, by rw [h, h]⟩
  rw [he]
  simp [List.filter_eq_nil_iff, SpiCall.isBulk]

/-- Claim C10: in the calls made by any sequence of transfer operations there
are as many beginTransaction as endTransaction calls, no beginTransaction comes
before the endTransaction of the one before it, no endTransaction comes outside
of a bracket, and every single operation closes the bracket it opens. -/
theorem bracket_balanced (D : SpiDevice) (steps : List (Bool × TransferOp))
    (step : Bool × TransferOp) (s : HalState) :
    (emitted s (runOps D steps s)).countP SpiCall.isBegin
      = (emitted s (runOps D steps s)).countP SpiCall.isEnd ∧
    bracketScan false (emitted s (runOps D steps s)) = some false ∧
    bracketScan false (emitted (runOps D steps s) (runOp D step (runOps D steps s)))
      = some false ∧
    (runOps D steps s).spiLog = s.spiLog ++ emitted s (runOps D steps s) := by
  have he := emitted_append s (runOps D steps s) (opsCalls s.spiConfig steps)
    (by rw [runOps_eq])
  have h1 := emitted_append (runOps D steps s) (runOp D step (runOps D steps s))
    (opCalls (runOps D steps s).spiConfig step) (by rw [runOp_eq])
  refine ⟨by rw [he, countP_opsCalls], by rw [he, bracketScan_opsCalls], ?_, ?_⟩
  · rw [h1]
    have := bracketScan_opCalls (runOps D steps s).spiConfig step []
    simpa [bracketScan] using this
  · rw [he, runOps_eq]

end HalSpiSTM32F1
